import Mathlib

/-!
# Verification of the detect-ec2 detection core

Shallow embedding of `src/detect.js` (functions `makeRequest`, `tryIMDSv1`,
`tryIMDSv2`, `getMetadata`, `detectEC2`) from the detect-ec2 package.

The network is modelled as a transport oracle: a function from the index of
the HTTP request issued during one detection invocation (0-based, in issue
order) and the request itself to its outcome.  `Except.error ()` models a
rejected promise (network error or timeout — the code never distinguishes
them); `Except.ok` models a resolved response carrying status and body.

Each embedded operation returns, besides its value, the list of requests it
issued, in order, so that sequencing properties ("the IMDSv1 probe is
attempted only after IMDSv2 failed", "metadata collection re-issues the
token PUT") can be stated.  The index an operation passes to the oracle for
its k-th request is its starting index plus k; the starting index of a later
phase is the number of requests issued before it.

JavaScript-value subtleties kept by the embedding:
* `detectEC2` assigns `result.metadata = await getMetadata(timeout)` when
  verbose, and `getMetadata` returns an object or `null`; hence the
  `metadata` field of `DetectionResult` is `Option (Option ...)`:
  `none` = the key is absent, `some none` = the key is present bound to
  `null`, `some (some m)` = the key is present bound to the mapping `m`.
* `!tokenRes.body` and `token ? ... : ...` are JavaScript truthiness tests:
  the empty string is falsy, so an empty token body counts as "no token".
* `options.timeout || 1000` makes a timeout of `0` fall back to `1000`.
-/

/-- An HTTP request as built by `makeRequest`: path on the fixed metadata
host `169.254.169.254`, timeout in milliseconds, headers, and method. -/
structure Req where
  path : String
  timeout : Nat
  headers : List (String × String)
  method : String
deriving DecidableEq, Repr

/-- A resolved HTTP response: status code and full body text. -/
structure Resp where
  status : Nat
  body : String
deriving DecidableEq, Repr

deriving instance DecidableEq for Except

/-- A transport behavior: the outcome of the n-th request issued during one
detection invocation.  `Except.error ()` is a rejected promise (network
error or timeout), `Except.ok` a resolved response. -/
def Transport : Type := Nat → Req → Except Unit Resp

/-- The IMDSv2 token-TTL header sent with every token PUT
(`X-aws-ec2-metadata-token-ttl-seconds: 21600`). -/
def tokenTtlHeaders : List (String × String) :=
  [("X-aws-ec2-metadata-token-ttl-seconds", "21600")]

/-- The session-token header (`X-aws-ec2-metadata-token`) carrying `tok`. -/
def tokenHeader (tok : String) : List (String × String) :=
  [("X-aws-ec2-metadata-token", tok)]

/-- The token-acquisition request: `PUT /latest/api/token` with the TTL
header, bounded by `timeout`. -/
def tokenReq (timeout : Nat) : Req :=
  ⟨"/latest/api/token", timeout, tokenTtlHeaders, "PUT"⟩

/-- A GET of the root metadata listing path `/latest/meta-data/` with the
given headers. -/
def rootReq (timeout : Nat) (hs : List (String × String)) : Req :=
  ⟨"/latest/meta-data/", timeout, hs, "GET"⟩

/-- A GET of one metadata field, `/latest/meta-data/<field>`. -/
def fieldReq (field : String) (timeout : Nat) (hs : List (String × String)) : Req :=
  ⟨"/latest/meta-data/" ++ field, timeout, hs, "GET"⟩

/-- `tryIMDSv1`: one plain GET of the root metadata listing path with no
special headers; succeeds iff the response status is 200; any rejection is
caught and counts as failure.  Returns the outcome and the requests
issued. -/
def tryIMDSv1 (t : Transport) (n : Nat) (timeout : Nat) : Bool × List Req :=
  match t n (rootReq timeout []) with
  | Except.error _ => (false, [rootReq timeout []])
  | Except.ok r => (r.status == 200, [rootReq timeout []])

/-- `tryIMDSv2`: PUT the token endpoint; on status 200 with non-empty body,
GET the root metadata listing with the token header; succeeds iff that GET
has status 200.  Any rejection is caught and counts as failure. -/
def tryIMDSv2 (t : Transport) (n : Nat) (timeout : Nat) : Bool × List Req :=
  match t n (tokenReq timeout) with
  | Except.error _ => (false, [tokenReq timeout])
  | Except.ok tokenRes =>
    if tokenRes.status ≠ 200 ∨ tokenRes.body = "" then
      (false, [tokenReq timeout])
    else
      match t (n + 1) (rootReq timeout (tokenHeader tokenRes.body)) with
      | Except.error _ =>
        (false, [tokenReq timeout, rootReq timeout (tokenHeader tokenRes.body)])
      | Except.ok r =>
        (r.status == 200, [tokenReq timeout, rootReq timeout (tokenHeader tokenRes.body)])

/-- The fixed, closed list of metadata field names fetched by
`getMetadata`, in source order. -/
def metadataFields : List String :=
  ["instance-id", "instance-type", "ami-id", "local-ipv4", "public-ipv4"]

/-- The token-acquisition step at the start of `getMetadata`: `token` stays
`null` (`none`) if the PUT rejects or returns non-200; otherwise it is the
body (possibly empty). -/
def getTokenBestEffort (t : Transport) (n : Nat) (timeout : Nat) : Option String :=
  match t n (tokenReq timeout) with
  | Except.error _ => none
  | Except.ok tokenRes => if tokenRes.status = 200 then some tokenRes.body else none

/-- `const headers = token ? {X-aws-ec2-metadata-token: token} : {}` —
JavaScript truthiness: `null` and the empty string both yield no header. -/
def metadataHeaders : Option String → List (String × String)
  | some tok => if tok = "" then [] else tokenHeader tok
  | none => []

/-- The field loop of `getMetadata`: for each field in order, one GET of
`/latest/meta-data/<field>`; a 200 response stores `(field, body)`; any
rejection or non-200 response is silently skipped.  Returns the collected
association list (in field order) and the requests issued. -/
def collectFields (t : Transport) (timeout : Nat) (hs : List (String × String)) :
    List String → Nat → List (String × String) × List Req
  | [], _ => ([], [])
  | f :: fs, n =>
    let rest := collectFields t timeout hs fs (n + 1)
    match t n (fieldReq f timeout hs) with
    | Except.ok r =>
      (if r.status = 200 then (f, r.body) :: rest.1 else rest.1,
       fieldReq f timeout hs :: rest.2)
    | Except.error _ => (rest.1, fieldReq f timeout hs :: rest.2)

/-- `getMetadata`: best-effort token acquisition (its own token PUT — no
token is passed in from negotiation), then the five field GETs with the
token header if a non-empty token was obtained; returns the collected
mapping if non-empty, else `null` (`none`). -/
def getMetadata (t : Transport) (n : Nat) (timeout : Nat) :
    Option (List (String × String)) × List Req :=
  let c := collectFields t timeout
    (metadataHeaders (getTokenBestEffort t n timeout)) metadataFields (n + 1)
  ((if c.1 = [] then none else some c.1), tokenReq timeout :: c.2)

/-- The value produced by `detectEC2`.  `metadata = none` means the key is
absent from the result object; `metadata = some none` means the key is
present bound to `null`; `metadata = some (some m)` means it is bound to
the mapping `m`. -/
structure DetectionResult where
  isEC2 : Bool
  imdsVersion : Option String
  metadata : Option (Option (List (String × String)))
deriving DecidableEq, Repr

/-- The options object accepted by `detectEC2`; `none` models an absent
property. -/
structure DetectOptions where
  timeout : Option Nat
  verbose : Option Bool
deriving DecidableEq, Repr

/-- `options.timeout || 1000`: absent or `0` (falsy) fall back to 1000. -/
def effTimeout (o : DetectOptions) : Nat :=
  match o.timeout with
  | none => 1000
  | some v => if v = 0 then 1000 else v

/-- `options.verbose || false`. -/
def effVerbose (o : DetectOptions) : Bool :=
  match o.verbose with
  | none => false
  | some b => b

/-- `detectEC2`: try IMDSv2 first; on success return
`{isEC2: true, imdsVersion: "v2"}`, assigning `result.metadata` from
`getMetadata` when verbose.  Otherwise fall back to IMDSv1 the same way
with `"v1"`.  If both fail, return `{isEC2: false}`.  Also returns the full
request log of the invocation. -/
def detectEC2 (t : Transport) (o : DetectOptions) : DetectionResult × List Req :=
  if (tryIMDSv2 t 0 (effTimeout o)).1 then
    if effVerbose o then
      (⟨true, some "v2",
        some (getMetadata t (tryIMDSv2 t 0 (effTimeout o)).2.length (effTimeout o)).1⟩,
       (tryIMDSv2 t 0 (effTimeout o)).2 ++
         (getMetadata t (tryIMDSv2 t 0 (effTimeout o)).2.length (effTimeout o)).2)
    else
      (⟨true, some "v2", none⟩, (tryIMDSv2 t 0 (effTimeout o)).2)
  else
    if (tryIMDSv1 t (tryIMDSv2 t 0 (effTimeout o)).2.length (effTimeout o)).1 then
      if effVerbose o then
        (⟨true, some "v1",
          some (getMetadata t
            ((tryIMDSv2 t 0 (effTimeout o)).2.length +
             (tryIMDSv1 t (tryIMDSv2 t 0 (effTimeout o)).2.length (effTimeout o)).2.length)
            (effTimeout o)).1⟩,
         (tryIMDSv2 t 0 (effTimeout o)).2 ++
           (tryIMDSv1 t (tryIMDSv2 t 0 (effTimeout o)).2.length (effTimeout o)).2 ++
           (getMetadata t
             ((tryIMDSv2 t 0 (effTimeout o)).2.length +
              (tryIMDSv1 t (tryIMDSv2 t 0 (effTimeout o)).2.length (effTimeout o)).2.length)
             (effTimeout o)).2)
      else
        (⟨true, some "v1", none⟩,
         (tryIMDSv2 t 0 (effTimeout o)).2 ++
           (tryIMDSv1 t (tryIMDSv2 t 0 (effTimeout o)).2.length (effTimeout o)).2)
    else
      (⟨false, none, none⟩,
       (tryIMDSv2 t 0 (effTimeout o)).2 ++
         (tryIMDSv1 t (tryIMDSv2 t 0 (effTimeout o)).2.length (effTimeout o)).2)

/-- The index at which `detectEC2` starts its `getMetadata` phase: the
number of requests consumed by version negotiation. -/
def metaStart (t : Transport) (o : DetectOptions) : Nat :=
  if (tryIMDSv2 t 0 (effTimeout o)).1 then
    (tryIMDSv2 t 0 (effTimeout o)).2.length
  else
    (tryIMDSv2 t 0 (effTimeout o)).2.length +
      (tryIMDSv1 t (tryIMDSv2 t 0 (effTimeout o)).2.length (effTimeout o)).2.length

/-- A transport on which every request fails (unreachable host). -/
def unreachableT : Transport := fun _ _ => Except.error ()

/-- A transport on which every request resolves with status 200 and body
`"ok"`. -/
def alwaysOkT : Transport := fun _ _ => Except.ok ⟨200, "ok"⟩

/-- A transport on which IMDSv2 negotiation succeeds (token PUT then
tokened root GET) and every later request — in particular the token PUT
and all five field GETs of the metadata phase — fails. -/
def v2ThenDownT : Transport := fun n r =>
  if n = 0 ∧ r = tokenReq 1000 then Except.ok ⟨200, "TOKEN"⟩
  else if n = 1 ∧ r = rootReq 1000 (tokenHeader "TOKEN") then Except.ok ⟨200, "listing"⟩
  else Except.error ()

/-- A transport on which the token PUT fails but the plain root GET (the
IMDSv1 probe, issued as request 1) succeeds. -/
def v1OnlyT : Transport := fun n r =>
  if n = 1 ∧ r = rootReq 1000 [] then Except.ok ⟨200, "listing"⟩ else Except.error ()

/-- A transport whose first request resolves with status 200 and an empty
body, and whose later requests all resolve with status 200 and body
`"val"`. -/
def emptyTokT : Transport := fun n _ =>
  if n = 0 then Except.ok ⟨200, ""⟩ else Except.ok ⟨200, "val"⟩

/-- `t` with its `n`-th request forced to fail outright. -/
def failTokenAt (t : Transport) (n : Nat) : Transport :=
  fun m r => if m = n then Except.error () else t m r

/-! ## Helper lemmas about the embedded operations -/

theorem tryIMDSv1_log (t : Transport) (n T : Nat) :
    (tryIMDSv1 t n T).2 = [rootReq T []] := by
  unfold tryIMDSv1
  cases t n (rootReq T []) <;> rfl

/-- Every request issued by `tryIMDSv2` is the token PUT or a tokened GET
of the root listing with a non-empty token. -/
theorem tryIMDSv2_log_mem (t : Transport) (n T : Nat) (q : Req)
    (hq : q ∈ (tryIMDSv2 t n T).2) :
    q = tokenReq T ∨ ∃ b, b ≠ "" ∧ q = rootReq T (tokenHeader b) := by
  unfold tryIMDSv2 at hq
  cases h : t n (tokenReq T) with
  | error e =>
    rw [h] at hq
    simp at hq
    exact Or.inl hq
  | ok tokenRes =>
    rw [h] at hq
    dsimp only at hq
    by_cases hc : tokenRes.status ≠ 200 ∨ tokenRes.body = ""
    · rw [if_pos hc] at hq
      simp at hq
      exact Or.inl hq
    · rw [if_neg hc] at hq
      push_neg at hc
      cases h2 : t (n + 1) (rootReq T (tokenHeader tokenRes.body)) with
      | error e =>
        rw [h2] at hq
        simp at hq
        rcases hq with hq | hq
        · exact Or.inl hq
        · exact Or.inr ⟨tokenRes.body, hc.2, hq⟩
      | ok r =>
        rw [h2] at hq
        simp at hq
        rcases hq with hq | hq
        · exact Or.inl hq
        · exact Or.inr ⟨tokenRes.body, hc.2, hq⟩

theorem tryIMDSv2_log_len (t : Transport) (n T : Nat) :
    (tryIMDSv2 t n T).2.length = 1 ∨ (tryIMDSv2 t n T).2.length = 2 := by
  unfold tryIMDSv2
  cases t n (tokenReq T) with
  | error e => exact Or.inl rfl
  | ok tokenRes =>
    dsimp only
    by_cases hc : tokenRes.status ≠ 200 ∨ tokenRes.body = ""
    · rw [if_pos hc]; exact Or.inl rfl
    · rw [if_neg hc]
      cases t (n + 1) (rootReq T (tokenHeader tokenRes.body)) with
      | error e => exact Or.inr rfl
      | ok r => exact Or.inr rfl

theorem collectFields_log (t : Transport) (T : Nat) (hs : List (String × String)) :
    ∀ (fs : List String) (n : Nat),
      (collectFields t T hs fs n).2 = fs.map (fun f => fieldReq f T hs) := by
  intro fs
  induction fs with
  | nil => intro n; rfl
  | cons g gs ih =>
    intro n
    unfold collectFields
    cases t n (fieldReq g T hs) with
    | error e => simp [ih (n + 1)]
    | ok r => simp [ih (n + 1)]

/-- Exact content of the collected mapping: `(f, v)` is collected iff some
position `i` of the field list holds `f` and the GET issued for that
position resolved with status 200 and body `v`. -/
theorem collectFields_mem (t : Transport) (T : Nat) (hs : List (String × String)) :
    ∀ (fs : List String) (n : Nat) (f v : String),
      (f, v) ∈ (collectFields t T hs fs n).1 ↔
        ∃ i, i < fs.length ∧ fs.get? i = some f ∧
          ∃ r, t (n + i) (fieldReq f T hs) = Except.ok r ∧ r.status = 200 ∧ r.body = v := by
  intro fs
  induction fs with
  | nil => intro n f v; simp [collectFields]
  | cons g gs ih =>
    intro n f v
    unfold collectFields
    cases h : t n (fieldReq g T hs) with
    | error e =>
      simp only []
      rw [ih (n + 1) f v]
      constructor
      · rintro ⟨i, hi, hget, r, hr, h200, hb⟩
        refine ⟨i + 1, by simpa using hi, by simpa using hget, r, ?_, h200, hb⟩
        rw [show n + (i + 1) = n + 1 + i by omega]
        exact hr
      · rintro ⟨i, hi, hget, r, hr, h200, hb⟩
        cases i with
        | zero =>
          simp at hget
          subst hget
          rw [show n + 0 = n by omega, h] at hr
          exact absurd hr (by simp)
        | succ j =>
          refine ⟨j, by simpa using hi, by simpa using hget, r, ?_, h200, hb⟩
          rw [show n + 1 + j = n + (j + 1) by omega]
          exact hr
    | ok r0 =>
      simp only []
      by_cases hst : r0.status = 200
      · rw [if_pos hst]
        constructor
        · intro hmem
          rcases List.mem_cons.mp hmem with heq | hmem
          · refine ⟨0, by simp, by simp [(Prod.mk.injEq _ _ _ _).mp heq |>.1], r0, ?_, hst,
              ((Prod.mk.injEq _ _ _ _).mp heq).2.symm⟩
            rw [show n + 0 = n by omega]
            rw [((Prod.mk.injEq _ _ _ _).mp heq).1]
            exact h
          · rcases (ih (n + 1) f v).mp hmem with ⟨i, hi, hget, r, hr, h200, hb⟩
            refine ⟨i + 1, by simpa using hi, by simpa using hget, r, ?_, h200, hb⟩
            rw [show n + (i + 1) = n + 1 + i by omega]
            exact hr
        · rintro ⟨i, hi, hget, r, hr, h200, hb⟩
          cases i with
          | zero =>
            simp at hget
            subst hget
            rw [show n + 0 = n by omega, h] at hr
            have hrr : r0 = r := by
              have := hr
              injection this
            subst hb
            subst hrr
            exact List.mem_cons_self _ _
          | succ j =>
            refine List.mem_cons_of_mem _ ((ih (n + 1) f v).mpr ?_)
            refine ⟨j, by simpa using hi, by simpa using hget, r, ?_, h200, hb⟩
            rw [show n + 1 + j = n + (j + 1) by omega]
            exact hr
      · rw [if_neg hst]
        rw [ih (n + 1) f v]
        constructor
        · rintro ⟨i, hi, hget, r, hr, h200, hb⟩
          refine ⟨i + 1, by simpa using hi, by simpa using hget, r, ?_, h200, hb⟩
          rw [show n + (i + 1) = n + 1 + i by omega]
          exact hr
        · rintro ⟨i, hi, hget, r, hr, h200, hb⟩
          cases i with
          | zero =>
            simp at hget
            subst hget
            rw [show n + 0 = n by omega, h] at hr
            have hrr : r0 = r := by injection hr
            subst hrr
            exact absurd h200 hst
          | succ j =>
            refine ⟨j, by simpa using hi, by simpa using hget, r, ?_, h200, hb⟩
            rw [show n + 1 + j = n + (j + 1) by omega]
            exact hr

/-- `collectFields` only looks at the transport on the window of indices it
actually uses. -/
theorem collectFields_congr (t1 t2 : Transport) (T : Nat) (hs : List (String × String)) :
    ∀ (fs : List String) (n : Nat),
      (∀ i, i < fs.length → t1 (n + i) = t2 (n + i)) →
      collectFields t1 T hs fs n = collectFields t2 T hs fs n := by
  intro fs
  induction fs with
  | nil => intro n _; rfl
  | cons g gs ih =>
    intro n hagree
    unfold collectFields
    have h0 : t1 n = t2 n := by
      have := hagree 0 (by simp)
      simpa using this
    have hrest : collectFields t1 T hs gs (n + 1) = collectFields t2 T hs gs (n + 1) := by
      apply ih
      intro i hi
      have := hagree (i + 1) (by simpa using Nat.succ_lt_succ hi)
      rw [show n + (i + 1) = n + 1 + i by omega] at this
      exact this
    rw [h0, hrest]

theorem getMetadata_log (t : Transport) (n T : Nat) :
    (getMetadata t n T).2 = tokenReq T ::
      metadataFields.map
        (fun f => fieldReq f T (metadataHeaders (getTokenBestEffort t n T))) := by
  unfold getMetadata
  simp [collectFields_log]

theorem getMetadata_log_len (t : Transport) (n T : Nat) :
    (getMetadata t n T).2.length = 6 := by
  rw [getMetadata_log]
  rfl

/-- Reading the metadata value through `Option.getD []` (so that `null`
reads as the empty mapping) yields exactly the collected association
list. -/
theorem getMetadata_getD (t : Transport) (n T : Nat) :
    ((getMetadata t n T).1).getD [] =
      (collectFields t T (metadataHeaders (getTokenBestEffort t n T))
        metadataFields (n + 1)).1 := by
  unfold getMetadata
  dsimp only
  by_cases hc : (collectFields t T (metadataHeaders (getTokenBestEffort t n T))
      metadataFields (n + 1)).1 = []
  · rw [if_pos hc, hc]
    rfl
  · rw [if_neg hc]
    rfl

/-- Exact content of the mapping produced by `getMetadata`. -/
theorem getMetadata_content (t : Transport) (n T : Nat) (f v : String) :
    (f, v) ∈ ((getMetadata t n T).1).getD [] ↔
      ∃ i, i < metadataFields.length ∧ metadataFields.get? i = some f ∧
        ∃ r, t (n + 1 + i)
            (fieldReq f T (metadataHeaders (getTokenBestEffort t n T))) = Except.ok r ∧
          r.status = 200 ∧ r.body = v := by
  rw [getMetadata_getD]
  exact collectFields_mem t T (metadataHeaders (getTokenBestEffort t n T))
    metadataFields (n + 1) f v

/-- If the token PUT of `getMetadata` rejects or returns non-200, no token
is obtained. -/
theorem getTokenBestEffort_none (t : Transport) (n T : Nat)
    (h : t n (tokenReq T) = Except.error () ∨
      ∃ r, t n (tokenReq T) = Except.ok r ∧ r.status ≠ 200) :
    getTokenBestEffort t n T = none := by
  unfold getTokenBestEffort
  rcases h with h | ⟨r, hr, hst⟩
  · rw [h]
  · rw [hr]
    dsimp only
    rw [if_neg hst]

/-- If no field GET of the metadata phase can return 200, `getMetadata`
returns `null`. -/
theorem getMetadata_none_of_nofail (t : Transport) (n T : Nat)
    (hfields : ∀ m f hs r, f ∈ metadataFields →
      t m (fieldReq f T hs) = Except.ok r → ¬ r.status = 200) :
    (getMetadata t n T).1 = none := by
  unfold getMetadata
  dsimp only
  rw [if_pos]
  rw [List.eq_nil_iff_forall_not_mem]
  rintro ⟨f, v⟩ hp
  obtain ⟨i, hi, hget, r, hr, h200, hb⟩ :=
    (collectFields_mem t T (metadataHeaders (getTokenBestEffort t n T))
      metadataFields (n + 1) f v).mp hp
  exact hfields _ f _ r (List.get?_mem hget) hr h200

theorem fieldReq_ne_rootReq (f : String) (hf : f ∈ metadataFields) (T T' : Nat)
    (hs hs' : List (String × String)) : fieldReq f T hs ≠ rootReq T' hs' := by
  intro h
  have hp : "/latest/meta-data/" ++ f = "/latest/meta-data/" := congrArg Req.path h
  fin_cases hf <;> exact absurd hp (by decide)

theorem fieldReq_ne_tokenReq (f : String) (hf : f ∈ metadataFields) (T T' : Nat)
    (hs : List (String × String)) : fieldReq f T hs ≠ tokenReq T' := by
  intro h
  have hp : "/latest/meta-data/" ++ f = "/latest/api/token" := congrArg Req.path h
  fin_cases hf <;> exact absurd hp (by decide)

theorem tokenReq_ne_rootReq (T T' : Nat) (hs : List (String × String)) :
    tokenReq T ≠ rootReq T' hs := by
  intro h
  have hp : "/latest/api/token" = "/latest/meta-data/" := congrArg Req.path h
  exact absurd hp (by decide)

/-- The plain (headerless) root GET that constitutes the IMDSv1 probe is
never among the requests issued by `tryIMDSv2`. -/
theorem rootPlain_not_in_v2_log (t : Transport) (n T T' : Nat) :
    rootReq T' [] ∉ (tryIMDSv2 t n T).2 := by
  intro h
  rcases tryIMDSv2_log_mem t n T _ h with h1 | ⟨b, hb, h2⟩
  · have hp : "/latest/meta-data/" = "/latest/api/token" := congrArg Req.path h1
    exact absurd hp (by decide)
  · have hh : ([] : List (String × String)) = tokenHeader b := congrArg Req.headers h2
    simp [tokenHeader] at hh

/-- The plain (headerless) root GET is never among the requests issued by
`getMetadata`. -/
theorem rootPlain_not_in_getMetadata_log (t : Transport) (n T T' : Nat) :
    rootReq T' [] ∉ (getMetadata t n T).2 := by
  rw [getMetadata_log]
  intro h
  rcases List.mem_cons.mp h with h | h
  · have hp : "/latest/meta-data/" = "/latest/api/token" := congrArg Req.path h
    exact absurd hp (by decide)
  · rcases List.mem_map.mp h with ⟨f, hf, heq⟩
    exact fieldReq_ne_rootReq f hf T T' _ [] heq

/-! ## Claim theorems -/

/-- C5: for every detection call and every transport behavior, the
`imdsVersion` field of the result is present (with value `"v1"` or `"v2"`)
iff `isEC2` is true, and it is absent whenever `isEC2` is false. -/
theorem claim_C5_version_iff_isEC2 (t : Transport) (o : DetectOptions) :
    ((detectEC2 t o).1.isEC2 = true ↔
      ((detectEC2 t o).1.imdsVersion = some "v1" ∨
       (detectEC2 t o).1.imdsVersion = some "v2")) ∧
    ((detectEC2 t o).1.isEC2 = false → (detectEC2 t o).1.imdsVersion = none) := by
  cases h2 : (tryIMDSv2 t 0 (effTimeout o)).1 with
  | true =>
    cases hv : effVerbose o <;> simp [detectEC2, h2, hv]
  | false =>
    cases h1 : (tryIMDSv1 t (tryIMDSv2 t 0 (effTimeout o)).2.length (effTimeout o)).1 with
    | true => cases hv : effVerbose o <;> simp [detectEC2, h2, h1, hv]
    | false => simp [detectEC2, h2, h1]

/-- C2: if the token PUT (request 0) resolves with status 200 and a
non-empty body and the root metadata GET carrying that body as token
(request 1) resolves with status 200, `detectEC2` returns `isEC2 = true`
with `imdsVersion = "v2"`. -/
theorem claim_C2_v2_success (t : Transport) (o : DetectOptions) (tok r2 : Resp)
    (hPut : t 0 (tokenReq (effTimeout o)) = Except.ok tok)
    (hst : tok.status = 200) (hne : tok.body ≠ "")
    (hGet : t 1 (rootReq (effTimeout o) (tokenHeader tok.body)) = Except.ok r2)
    (h200 : r2.status = 200) :
    (detectEC2 t o).1.isEC2 = true ∧ (detectEC2 t o).1.imdsVersion = some "v2" := by
  have hv2 : (tryIMDSv2 t 0 (effTimeout o)).1 = true := by
    unfold tryIMDSv2
    rw [hPut]
    dsimp only
    rw [if_neg (by push_neg; exact ⟨hst, hne⟩)]
    rw [hGet]
    simp [h200]
  cases hv : effVerbose o <;> simp [detectEC2, hv2, hv]

/-- Witness for C2 at a concrete transport: negotiation succeeds with token
`"TOKEN"`, so the result is EC2 with protocol v2. -/
theorem claim_C2_witness :
    (detectEC2 v2ThenDownT ⟨none, none⟩).1.isEC2 = true ∧
    (detectEC2 v2ThenDownT ⟨none, none⟩).1.imdsVersion = some "v2" :=
  claim_C2_v2_success v2ThenDownT ⟨none, none⟩ ⟨200, "TOKEN"⟩ ⟨200, "listing"⟩
    (by decide) (by decide) (by decide) (by decide) (by decide)

/-- C4: if both probes fail, the result is exactly
`{isEC2: false}` — no `imdsVersion`, no `metadata` key (and, the embedding
being total, no error is raised to the caller). -/
theorem claim_C4_both_fail (t : Transport) (o : DetectOptions)
    (h2 : (tryIMDSv2 t 0 (effTimeout o)).1 = false)
    (h1 : (tryIMDSv1 t (tryIMDSv2 t 0 (effTimeout o)).2.length (effTimeout o)).1 = false) :
    (detectEC2 t o).1 = ⟨false, none, none⟩ := by
  simp [detectEC2, h2, h1]

/-- Witness for C4 on the unreachable-host transport. -/
theorem claim_C4_witness :
    (detectEC2 unreachableT ⟨none, none⟩).1 = ⟨false, none, none⟩ :=
  claim_C4_both_fail unreachableT ⟨none, none⟩ (by decide) (by decide)

/-- C9: on a transport where every request fails (unreachable host), any
two detection calls — with the given options — both return the
structurally identical value `{isEC2: false}`. -/
theorem claim_C9_idempotent (t : Transport) (o1 o2 : DetectOptions)
    (hfail : ∀ n r, t n r = Except.error ()) :
    (detectEC2 t o1).1 = ⟨false, none, none⟩ ∧
    (detectEC2 t o2).1 = ⟨false, none, none⟩ ∧
    (detectEC2 t o1).1 = (detectEC2 t o2).1 := by
  have key : ∀ o : DetectOptions, (detectEC2 t o).1 = ⟨false, none, none⟩ := by
    intro o
    have h2 : (tryIMDSv2 t 0 (effTimeout o)).1 = false := by
      unfold tryIMDSv2
      rw [hfail 0 (tokenReq (effTimeout o))]
    have h1 : (tryIMDSv1 t (tryIMDSv2 t 0 (effTimeout o)).2.length (effTimeout o)).1
        = false := by
      unfold tryIMDSv1
      rw [hfail (tryIMDSv2 t 0 (effTimeout o)).2.length (rootReq (effTimeout o) [])]
    simp [detectEC2, h2, h1]
  exact ⟨key o1, key o2, by rw [key o1, key o2]⟩

/-- Witness for C9 on the unreachable-host transport with an explicit
timeout. -/
theorem claim_C9_witness :
    (detectEC2 unreachableT ⟨some 250, none⟩).1 = ⟨false, none, none⟩ :=
  (claim_C9_idempotent unreachableT ⟨some 250, none⟩ ⟨some 250, none⟩
    (fun _ _ => rfl)).1

/-- C7: for every transport behavior, `detectEC2` terminates returning a
`DetectionResult` (the embedding is a total function: every transport
failure is caught inside the helpers), having issued at most 9 requests. -/
theorem claim_C7_total (t : Transport) (o : DetectOptions) :
    ∃ res log, detectEC2 t o = (res, log) ∧ log.length ≤ 9 := by
  refine ⟨(detectEC2 t o).1, (detectEC2 t o).2, rfl, ?_⟩
  have hv2 := tryIMDSv2_log_len t 0 (effTimeout o)
  cases h2 : (tryIMDSv2 t 0 (effTimeout o)).1 with
  | true =>
    cases hv : effVerbose o <;>
      simp [detectEC2, h2, hv, getMetadata_log_len] <;> omega
  | false =>
    cases h1 : (tryIMDSv1 t (tryIMDSv2 t 0 (effTimeout o)).2.length (effTimeout o)).1 with
    | true =>
      cases hv : effVerbose o <;>
        simp [detectEC2, h2, h1, hv, getMetadata_log_len, tryIMDSv1_log] <;> omega
    | false =>
      simp [detectEC2, h2, h1, tryIMDSv1_log]
      omega

/-- Splitting a request log at the length of its first phase. -/
theorem log_split_helper (l1 l2 : List Req) (q : Req) (h0 : l2.get? 0 = some q) :
    (l1 ++ l2).take l1.length = l1 ∧ (l1 ++ l2).get? l1.length = some q := by
  refine ⟨List.take_left l1 l2, ?_⟩
  rw [List.get?_eq_getElem?, List.getElem?_append_right (le_refl _)]
  simpa [List.get?_eq_getElem?] using h0

/-- C3: if the IMDSv2 attempt fails — which `tryIMDSv2` reports exactly
when the token PUT rejects, returns non-200 or an empty body, or the
tokened GET rejects or is non-200 — and the plain root GET issued next
returns 200, the result is `isEC2 = true` with `imdsVersion = "v1"`.
Moreover the plain (headerless) root GET — the IMDSv1 probe — is never
issued when IMDSv2 succeeded, and when IMDSv2 failed it is issued exactly
at the position following the IMDSv2 attempt's requests. -/
theorem claim_C3_v1_fallback (t : Transport) (o : DetectOptions) :
    (∀ r1 : Resp, (tryIMDSv2 t 0 (effTimeout o)).1 = false →
      t (tryIMDSv2 t 0 (effTimeout o)).2.length (rootReq (effTimeout o) []) =
        Except.ok r1 →
      r1.status = 200 →
      (detectEC2 t o).1.isEC2 = true ∧ (detectEC2 t o).1.imdsVersion = some "v1") ∧
    ((tryIMDSv2 t 0 (effTimeout o)).1 = true →
      rootReq (effTimeout o) [] ∉ (detectEC2 t o).2) ∧
    ((tryIMDSv2 t 0 (effTimeout o)).1 = false →
      (detectEC2 t o).2.take (tryIMDSv2 t 0 (effTimeout o)).2.length =
        (tryIMDSv2 t 0 (effTimeout o)).2 ∧
      (detectEC2 t o).2.get? (tryIMDSv2 t 0 (effTimeout o)).2.length =
        some (rootReq (effTimeout o) [])) := by
  refine ⟨?_, ?_, ?_⟩
  · intro r1 h2 hGet h200
    have hv1 : (tryIMDSv1 t (tryIMDSv2 t 0 (effTimeout o)).2.length
        (effTimeout o)).1 = true := by
      unfold tryIMDSv1
      rw [hGet]
      simp [h200]
    cases hv : effVerbose o <;> simp [detectEC2, h2, hv1, hv]
  · intro h2
    cases hv : effVerbose o with
    | true =>
      have hlog : (detectEC2 t o).2 =
          (tryIMDSv2 t 0 (effTimeout o)).2 ++
            (getMetadata t (tryIMDSv2 t 0 (effTimeout o)).2.length
              (effTimeout o)).2 := by
        simp [detectEC2, h2, hv]
      rw [hlog]
      intro hmem
      rcases List.mem_append.mp hmem with hmem | hmem
      · exact rootPlain_not_in_v2_log t 0 (effTimeout o) (effTimeout o) hmem
      · exact rootPlain_not_in_getMetadata_log t _ (effTimeout o) (effTimeout o) hmem
    | false =>
      have hlog : (detectEC2 t o).2 = (tryIMDSv2 t 0 (effTimeout o)).2 := by
        simp [detectEC2, h2, hv]
      rw [hlog]
      exact rootPlain_not_in_v2_log t 0 (effTimeout o) (effTimeout o)
  · intro h2
    have hv1log := tryIMDSv1_log t (tryIMDSv2 t 0 (effTimeout o)).2.length (effTimeout o)
    cases h1 : (tryIMDSv1 t (tryIMDSv2 t 0 (effTimeout o)).2.length (effTimeout o)).1 with
    | true =>
      cases hv : effVerbose o with
      | true =>
        have hlog : (detectEC2 t o).2 =
            (tryIMDSv2 t 0 (effTimeout o)).2 ++
              ((tryIMDSv1 t (tryIMDSv2 t 0 (effTimeout o)).2.length (effTimeout o)).2 ++
                (getMetadata t
                  ((tryIMDSv2 t 0 (effTimeout o)).2.length +
                    (tryIMDSv1 t (tryIMDSv2 t 0 (effTimeout o)).2.length
                      (effTimeout o)).2.length)
                  (effTimeout o)).2) := by
          simp [detectEC2, h2, h1, hv]
        rw [hlog]
        exact log_split_helper _ _ _ (by rw [hv1log]; rfl)
      | false =>
        have hlog : (detectEC2 t o).2 =
            (tryIMDSv2 t 0 (effTimeout o)).2 ++
              (tryIMDSv1 t (tryIMDSv2 t 0 (effTimeout o)).2.length (effTimeout o)).2 := by
          simp [detectEC2, h2, h1, hv]
        rw [hlog]
        exact log_split_helper _ _ _ (by rw [hv1log]; rfl)
    | false =>
      have hlog : (detectEC2 t o).2 =
          (tryIMDSv2 t 0 (effTimeout o)).2 ++
            (tryIMDSv1 t (tryIMDSv2 t 0 (effTimeout o)).2.length (effTimeout o)).2 := by
        simp [detectEC2, h2, h1]
      rw [hlog]
      exact log_split_helper _ _ _ (by rw [hv1log]; rfl)

/-- Witness for C3 at a concrete transport: token PUT fails, plain root
GET succeeds, so the result is EC2 with protocol v1. -/
theorem claim_C3_witness :
    (detectEC2 v1OnlyT ⟨none, none⟩).1.isEC2 = true ∧
    (detectEC2 v1OnlyT ⟨none, none⟩).1.imdsVersion = some "v1" :=
  (claim_C3_v1_fallback v1OnlyT ⟨none, none⟩).1 ⟨200, "listing"⟩
    (by decide) (by decide) (by decide)

/-- C6: on a verbose call that detected EC2, the metadata phase starts at
index `metaStart`; the result's `metadata` key holds exactly the
`getMetadata` value from there, whose mapping (reading `null` as the empty
mapping) contains `(f, v)` precisely when field `f` occupies some position
`i` of the field list and its GET resolved with status 200 and body `v` —
each field independently, failed fields being skipped.  Collecting
metadata does not change `isEC2` or `imdsVersion` relative to a
non-verbose call. -/
theorem claim_C6_metadata_exact (t : Transport) (o : DetectOptions)
    (hverb : effVerbose o = true) (hec2 : (detectEC2 t o).1.isEC2 = true) :
    (detectEC2 t o).1.metadata =
      some ((getMetadata t (metaStart t o) (effTimeout o)).1) ∧
    (∀ f v,
      (f, v) ∈ ((getMetadata t (metaStart t o) (effTimeout o)).1).getD [] ↔
        ∃ i, i < metadataFields.length ∧ metadataFields.get? i = some f ∧
          ∃ r, t (metaStart t o + 1 + i)
              (fieldReq f (effTimeout o)
                (metadataHeaders
                  (getTokenBestEffort t (metaStart t o) (effTimeout o)))) =
            Except.ok r ∧ r.status = 200 ∧ r.body = v) ∧
    (detectEC2 t o).1.isEC2 = (detectEC2 t ⟨o.timeout, some false⟩).1.isEC2 ∧
    (detectEC2 t o).1.imdsVersion =
      (detectEC2 t ⟨o.timeout, some false⟩).1.imdsVersion := by
  have hTeq : effTimeout (⟨o.timeout, some false⟩ : DetectOptions) = effTimeout o := rfl
  have hVeq : effVerbose (⟨o.timeout, some false⟩ : DetectOptions) = false := rfl
  refine ⟨?_, fun f v => getMetadata_content t (metaStart t o) (effTimeout o) f v, ?_, ?_⟩
  · cases h2 : (tryIMDSv2 t 0 (effTimeout o)).1 with
    | true => simp [detectEC2, metaStart, h2, hverb]
    | false =>
      cases h1 : (tryIMDSv1 t (tryIMDSv2 t 0 (effTimeout o)).2.length (effTimeout o)).1 with
      | true => simp [detectEC2, metaStart, h2, h1, hverb]
      | false => simp [detectEC2, h2, h1] at hec2
  · cases h2 : (tryIMDSv2 t 0 (effTimeout o)).1 with
    | true => simp [detectEC2, hTeq, hVeq, h2, hverb]
    | false =>
      cases h1 : (tryIMDSv1 t (tryIMDSv2 t 0 (effTimeout o)).2.length (effTimeout o)).1 with
      | true => simp [detectEC2, hTeq, hVeq, h2, h1, hverb]
      | false => simp [detectEC2, h2, h1] at hec2
  · cases h2 : (tryIMDSv2 t 0 (effTimeout o)).1 with
    | true => simp [detectEC2, hTeq, hVeq, h2, hverb]
    | false =>
      cases h1 : (tryIMDSv1 t (tryIMDSv2 t 0 (effTimeout o)).2.length (effTimeout o)).1 with
      | true => simp [detectEC2, hTeq, hVeq, h2, h1, hverb]
      | false => simp [detectEC2, h2, h1] at hec2

/-- Witness for C6 on a transport where every request succeeds. -/
theorem claim_C6_witness :
    (detectEC2 alwaysOkT ⟨none, some true⟩).1.metadata =
      some ((getMetadata alwaysOkT (metaStart alwaysOkT ⟨none, some true⟩)
        (effTimeout ⟨none, some true⟩)).1) :=
  (claim_C6_metadata_exact alwaysOkT ⟨none, some true⟩ (by decide) (by decide)).1

/-- C8: `getMetadata` issues its own token PUT (same TTL header and
timeout, no token carried over from negotiation — the operation takes
none) as its first request, and if that PUT rejects or returns non-200 it
still issues all five field GETs, each with no token header. -/
theorem claim_C8_token_reissue (t : Transport) (n T : Nat) :
    (getMetadata t n T).2.head? = some (tokenReq T) ∧
    ((t n (tokenReq T) = Except.error () ∨
        (∃ r, t n (tokenReq T) = Except.ok r ∧ r.status ≠ 200)) →
      (getMetadata t n T).2 =
        tokenReq T :: metadataFields.map (fun f => fieldReq f T [])) := by
  constructor
  · rw [getMetadata_log]
    rfl
  · intro h
    have htok := getTokenBestEffort_none t n T h
    rw [getMetadata_log, htok]
    rfl

/-- Witness for C8 on the unreachable-host transport: the token PUT fails
and the five field GETs are issued with no token header. -/
theorem claim_C8_witness :
    (getMetadata unreachableT 0 1000).2 =
      [tokenReq 1000, fieldReq "instance-id" 1000 [], fieldReq "instance-type" 1000 [],
       fieldReq "ami-id" 1000 [], fieldReq "local-ipv4" 1000 [],
       fieldReq "public-ipv4" 1000 []] := by
  rw [(claim_C8_token_reissue unreachableT 0 1000).2 (Or.inl rfl)]
  rfl

/-- C10: if the token PUT of `getMetadata` returns 200 with an empty body,
the empty string is treated as no token: all five field GETs carry no
token header, and the whole operation behaves identically to a run whose
token PUT failed outright. -/
theorem claim_C10_empty_token_no_header (t : Transport) (n T : Nat)
    (h : t n (tokenReq T) = Except.ok ⟨200, ""⟩) :
    (getMetadata t n T).2 =
      tokenReq T :: metadataFields.map (fun f => fieldReq f T []) ∧
    getMetadata t n T = getMetadata (failTokenAt t n) n T := by
  have htok : getTokenBestEffort t n T = some "" := by
    unfold getTokenBestEffort
    rw [h]
    rfl
  have htok' : getTokenBestEffort (failTokenAt t n) n T = none := by
    unfold getTokenBestEffort failTokenAt
    simp
  have hhs : metadataHeaders (getTokenBestEffort t n T) = [] := by
    rw [htok]
    rfl
  have hhs' : metadataHeaders (getTokenBestEffort (failTokenAt t n) n T) = [] := by
    rw [htok']
    rfl
  have hcc : collectFields t T [] metadataFields (n + 1) =
      collectFields (failTokenAt t n) T [] metadataFields (n + 1) := by
    apply collectFields_congr
    intro i hi
    funext r
    show t (n + 1 + i) r = failTokenAt t n (n + 1 + i) r
    unfold failTokenAt
    rw [if_neg (by omega)]
  constructor
  · rw [getMetadata_log, hhs]
  · unfold getMetadata
    dsimp only
    rw [hhs, hhs', hcc]

/-- Witness for C10 on a transport whose token PUT returns 200 with empty
body: the field GETs are issued headerless. -/
theorem claim_C10_witness :
    (getMetadata emptyTokT 0 1000).2 =
      [tokenReq 1000, fieldReq "instance-id" 1000 [], fieldReq "instance-type" 1000 [],
       fieldReq "ami-id" 1000 [], fieldReq "local-ipv4" 1000 [],
       fieldReq "public-ipv4" 1000 []] := by
  rw [(claim_C10_empty_token_no_header emptyTokT 0 1000 rfl).1]
  rfl

/-- C1 as stated is false: on a concrete transport where IMDSv2
negotiation succeeds and then every request of the verbose metadata phase
fails (so zero of the five field GETs succeed — `getMetadata` returns
`null`), the result is `{isEC2: true, imdsVersion: "v2", metadata: null}`:
the `metadata` key is present, bound to `null`, not absent. -/
theorem claim_C1_counterexample :
    (detectEC2 v2ThenDownT ⟨none, some true⟩).1 = ⟨true, some "v2", some none⟩ ∧
    (getMetadata v2ThenDownT 2 1000).1 = none ∧
    ¬ (detectEC2 v2ThenDownT ⟨none, some true⟩).1.metadata = none := by decide

/-- C1, amended: for every verbose detection call with `isEC2` true on a
transport where no metadata field GET can return 200, the result's
`metadata` key is present and bound to `null` (`getMetadata`'s `null`
return is assigned to it) — it is not absent. -/
theorem claim_C1_amended (t : Transport) (o : DetectOptions)
    (hverb : effVerbose o = true) (hec2 : (detectEC2 t o).1.isEC2 = true)
    (hfields : ∀ m f hs r, f ∈ metadataFields →
      t m (fieldReq f (effTimeout o) hs) = Except.ok r → ¬ r.status = 200) :
    (detectEC2 t o).1.metadata = some none ∧
    ¬ (detectEC2 t o).1.metadata = none := by
  have hnone : ∀ m, (getMetadata t m (effTimeout o)).1 = none :=
    fun m => getMetadata_none_of_nofail t m (effTimeout o) hfields
  cases h2 : (tryIMDSv2 t 0 (effTimeout o)).1 with
  | true => constructor <;> simp [detectEC2, h2, hverb, hnone]
  | false =>
    cases h1 : (tryIMDSv1 t (tryIMDSv2 t 0 (effTimeout o)).2.length (effTimeout o)).1 with
    | true => constructor <;> simp [detectEC2, h2, h1, hverb, hnone]
    | false => simp [detectEC2, h2, h1] at hec2

/-- Witness for the amended C1 at the counterexample transport. -/
theorem claim_C1_witness :
    effVerbose (⟨none, some true⟩ : DetectOptions) = true ∧
    (detectEC2 v2ThenDownT ⟨none, some true⟩).1.isEC2 = true ∧
    (detectEC2 v2ThenDownT ⟨none, some true⟩).1.metadata = some none := by
  refine ⟨by decide, by decide,
    (claim_C1_amended v2ThenDownT ⟨none, some true⟩ (by decide) (by decide) ?_).1⟩
  intro m f hs r hf hr h200
  have hT : effTimeout (⟨none, some true⟩ : DetectOptions) = 1000 := rfl
  rw [hT] at hr
  unfold v2ThenDownT at hr
  by_cases hc1 : m = 0 ∧ fieldReq f 1000 hs = tokenReq 1000
  · exact fieldReq_ne_tokenReq f hf 1000 1000 hs hc1.2
  · rw [if_neg hc1] at hr
    by_cases hc2 : m = 1 ∧ fieldReq f 1000 hs = rootReq 1000 (tokenHeader "TOKEN")
    · exact fieldReq_ne_rootReq f hf 1000 1000 hs (tokenHeader "TOKEN") hc2.2
    · rw [if_neg hc2] at hr
      exact absurd hr (by simp)
